import Mathlib

/-!
Verification of the core data-normalization and settlement logic of
`dashboard_g.py` (amotors dashboard).  The Python helpers are shallowly
embedded as executable Lean functions over explicit row/cell types:

* `cleanNumeric`  embeds `clean_numeric` (line 60): per-element
  `pd.to_numeric(str(x) stripped of non [0-9.-], errors="coerce").fillna(0).astype(int)`.
* `normalize_ym_elem` embeds the per-element behaviour of `normalize_ym` (line 67).
* `is_excluded_income_type` embeds lines 94-104.
* `categorize_ledger_row` embeds lines 106-135.
* `load_data` (error-handling skeleton) embeds lines 137-236.
* `compute_auto_month_summary` embeds lines 238-298.
* `buildCandidates` embeds the entity-index construction (lines 347-361, 468-477).

Pandas cells are modelled by `Cell` (a string, an integer, a decimal number,
or a missing value); dataframes by lists of typed row structures; machine
integers by unbounded `Int` (the amounts involved never approach 2^63).
-/

/-- Python-style whitespace test (ASCII subset used by the data at hand). -/
def isWs (c : Char) : Bool := c = ' ' || c = '\t' || c = '\n' || c = '\r'

/-- Model of Python `str.strip()`: drop leading and trailing whitespace. -/
def pyStrip (s : String) : String :=
  String.mk (((s.data.dropWhile isWs).reverse.dropWhile isWs).reverse)

/-- Model of Python `str.lower()` (ASCII case folding; the Korean keywords
involved are unaffected by case folding). -/
def pyLower (s : String) : String := String.mk (s.data.map Char.toLower)

/-- Ordered character-list test: does `needle` occur at the head of `hay`? -/
def leadsList : List Char → List Char → Bool
  | [], _ => true
  | _ :: _, [] => false
  | a :: as, b :: bs => a = b && leadsList as bs

/-- Contiguous sublist test (model of Python `needle in hay` on strings). -/
def hasSub (needle : List Char) : List Char → Bool
  | [] => leadsList needle []
  | b :: rest => leadsList needle (b :: rest) || hasSub needle rest

/-- Model of the Python substring test `needle in hay`. -/
def strContains (hay needle : String) : Bool := hasSub needle.data hay.data

/-- Decimal digit character for a digit value. -/
def digitChar (d : Nat) : Char := Char.ofNat (48 + d)

/-- Fuel-driven big-endian decimal digit list of a natural number. -/
def natDigitsGo : Nat → Nat → List Char
  | 0, _ => []
  | fuel + 1, n =>
    if n < 10 then [digitChar n]
    else natDigitsGo fuel (n / 10) ++ [digitChar (n % 10)]

/-- Decimal digit characters of a natural number (model of Python `str(n)` for `n ≥ 0`). -/
def natDigits (n : Nat) : List Char := natDigitsGo (n + 1) n

/-- Model of Python `str` on an integer: optional minus sign then decimal digits. -/
def intRepr (n : Int) : List Char :=
  if n < 0 then '-' :: natDigits n.natAbs else natDigits n.natAbs

/-- Numeric value of a big-endian list of decimal digit characters. -/
def digitsToNat (cs : List Char) : Nat :=
  cs.foldl (fun a c => a * 10 + (c.toNat - 48)) 0

/-- Characters kept by the `clean_numeric` regex `[^0-9.-]` (digits, dot, minus). -/
def keepNumChar (c : Char) : Bool := c.isDigit || c = '.' || c = '-'

/-- A pandas cell as seen by the helpers: free text, an integer, a decimal
number (integer part plus fraction digit characters), or a missing value. -/
inductive Cell where
  | str : String → Cell
  | int : Int → Cell
  | float : Int → List Char → Cell
  | null : Cell
deriving DecidableEq, Repr

/-- Model of `series.astype(str)` on one cell (`str(x)` in Python; a missing
value renders as `"nan"`). -/
def pyStrChars : Cell → List Char
  | .str s => s.data
  | .int n => intRepr n
  | .float ip fr => intRepr ip ++ '.' :: fr
  | .null => ['n', 'a', 'n']

/-- Model of `pd.to_numeric(..., errors="coerce")` on a sign-free stripped
character list: digits with at most one dot, at least one digit; the value is
the integer part (so `astype(int)` truncation toward zero is built in). -/
def parseNoSign (cs : List Char) : Option Nat :=
  if cs.any (fun c => c = '-') then none
  else
    let ip := cs.takeWhile (fun c => !(c = '.'))
    let rest := cs.dropWhile (fun c => !(c = '.'))
    match rest with
    | [] => if ip.isEmpty then none else some (digitsToNat ip)
    | _ :: frac =>
      if frac.any (fun c => c = '.') then none
      else if ip.isEmpty && frac.isEmpty then none
      else some (digitsToNat ip)

/-- Model of `pd.to_numeric(..., errors="coerce")` followed by integer
truncation, on a stripped character list with an optional leading minus. -/
def parseSigned (cs : List Char) : Option Int :=
  if cs.head? = some '-' then (parseNoSign cs.tail).map (fun v => -(v : Int))
  else (parseNoSign cs).map (fun v => (v : Int))

/-- Embedding of `clean_numeric` (source line 60), per element:
`str(x)` is stripped of every character outside `[0-9.-]`, parsed as a number
(`errors="coerce"`), unparseable values become 0, and the result is truncated
to an integer. -/
def cleanNumeric (c : Cell) : Int :=
  (parseSigned ((pyStrChars c).filter keepNumChar)).getD 0

theorem digitsToNat_append (cs : List Char) (c : Char) :
    digitsToNat (cs ++ [c]) = digitsToNat cs * 10 + (c.toNat - 48) := by
  simp [digitsToNat, List.foldl_append]

theorem digitChar_isDigit {d : Nat} (h : d < 10) : (digitChar d).isDigit = true := by
  interval_cases d <;> decide

theorem digitChar_val {d : Nat} (h : d < 10) : (digitChar d).toNat - 48 = d := by
  interval_cases d <;> decide

theorem natDigitsGo_spec : ∀ fuel n, n < fuel →
    digitsToNat (natDigitsGo fuel n) = n ∧
    (∀ c ∈ natDigitsGo fuel n, c.isDigit = true) ∧
    natDigitsGo fuel n ≠ [] := by
  intro fuel
  induction fuel with
  | zero => intro n hn; omega
  | succ f ih =>
    intro n hn
    by_cases h10 : n < 10
    · simp only [natDigitsGo, if_pos h10]
      refine ⟨?_, ?_, by simp⟩
      · simp [digitsToNat, digitChar_val h10]
      · intro c hc
        simp at hc
        subst hc
        exact digitChar_isDigit h10
    · have hlt : n / 10 < n := Nat.div_lt_self (by omega) (by omega)
      have hdiv : n / 10 < f := by omega
      obtain ⟨h1, h2, h3⟩ := ih (n / 10) hdiv
      simp only [natDigitsGo, if_neg h10]
      refine ⟨?_, ?_, by simp⟩
      · rw [digitsToNat_append, h1, digitChar_val (Nat.mod_lt n (by omega))]
        omega
      · intro c hc
        rcases List.mem_append.1 hc with h | h
        · exact h2 c h
        · simp at h
          subst h
          exact digitChar_isDigit (Nat.mod_lt n (by omega))

theorem natDigits_spec (n : Nat) :
    digitsToNat (natDigits n) = n ∧
    (∀ c ∈ natDigits n, c.isDigit = true) ∧ natDigits n ≠ [] :=
  natDigitsGo_spec (n + 1) n (Nat.lt_succ_self n)

theorem digit_ne_dot {c : Char} (h : c.isDigit = true) : ¬ c = '.' := by
  intro he
  subst he
  cases h

theorem digit_ne_dash {c : Char} (h : c.isDigit = true) : ¬ c = '-' := by
  intro he
  subst he
  cases h

theorem takeWhile_of_all {p : Char → Bool} {l : List Char}
    (h : ∀ c ∈ l, p c = true) : l.takeWhile p = l := by
  induction l with
  | nil => rfl
  | cons a as ih =>
    simp [List.takeWhile_cons, h a (by simp)]
    exact fun c hc => h c (by simp [hc])

theorem dropWhile_of_all {p : Char → Bool} {l : List Char}
    (h : ∀ c ∈ l, p c = true) : l.dropWhile p = [] := by
  induction l with
  | nil => rfl
  | cons a as ih =>
    simp [List.dropWhile_cons, h a (by simp)]
    exact fun c hc => h c (by simp [hc])

theorem takeWhile_append_stop {p : Char → Bool} :
    ∀ (xs : List Char) (y : Char) (ys : List Char), (∀ c ∈ xs, p c = true) → p y = false →
      (xs ++ y :: ys).takeWhile p = xs ∧ (xs ++ y :: ys).dropWhile p = y :: ys := by
  intro xs
  induction xs with
  | nil =>
    intro y ys _ hy
    simp [List.takeWhile_cons, List.dropWhile_cons, hy]
  | cons a as ih =>
    intro y ys hall hy
    have ha : p a = true := hall a (by simp)
    have hrest := ih y ys (fun c hc => hall c (by simp [hc])) hy
    simp [List.takeWhile_cons, List.dropWhile_cons, ha, hrest.1, hrest.2]

theorem parseNoSign_digits {cs : List Char} (hne : cs ≠ [])
    (hd : ∀ c ∈ cs, c.isDigit = true) : parseNoSign cs = some (digitsToNat cs) := by
  have hany : cs.any (fun c => decide (c = '-')) = false := by
    rw [List.any_eq_false]
    intro c hc
    simp
    exact digit_ne_dash (hd c hc)
  have htake : cs.takeWhile (fun c => !decide (c = '.')) = cs :=
    takeWhile_of_all (fun c hc => by simp [digit_ne_dot (hd c hc)])
  have hdrop : cs.dropWhile (fun c => !decide (c = '.')) = [] :=
    dropWhile_of_all (fun c hc => by simp [digit_ne_dot (hd c hc)])
  unfold parseNoSign
  rw [hany]
  simp only [Bool.false_eq_true, if_false, htake, hdrop]
  cases cs with
  | nil => exact absurd rfl hne
  | cons a as => simp

theorem parseSigned_digits {cs : List Char} (hne : cs ≠ [])
    (hd : ∀ c ∈ cs, c.isDigit = true) :
    parseSigned cs = some ((digitsToNat cs : Nat) : Int) := by
  unfold parseSigned
  cases cs with
  | nil => exact absurd rfl hne
  | cons a as =>
    have hnd : ¬ (a :: as).head? = some '-' := by
      simp
      exact digit_ne_dash (hd a (by simp))
    rw [if_neg hnd, parseNoSign_digits (by simp) hd]
    rfl

theorem parseSigned_dash_digits {cs : List Char} (hne : cs ≠ [])
    (hd : ∀ c ∈ cs, c.isDigit = true) :
    parseSigned ('-' :: cs) = some (-((digitsToNat cs : Nat) : Int)) := by
  unfold parseSigned
  rw [if_pos (by simp), List.tail_cons, parseNoSign_digits hne hd]
  rfl

theorem intRepr_all_kept (n : Int) : ∀ c ∈ intRepr n, keepNumChar c = true := by
  intro c hc
  unfold intRepr at hc
  by_cases hneg : n < 0
  · rw [if_pos hneg] at hc
    rcases List.mem_cons.1 hc with h | h
    · subst h; rfl
    · simp [keepNumChar, (natDigits_spec n.natAbs).2.1 c h]
  · rw [if_neg hneg] at hc
    simp [keepNumChar, (natDigits_spec n.natAbs).2.1 c hc]

theorem parseSigned_intRepr (n : Int) : parseSigned (intRepr n) = some n := by
  obtain ⟨h1, h2, h3⟩ := natDigits_spec n.natAbs
  unfold intRepr
  by_cases hneg : n < 0
  · rw [if_pos hneg, parseSigned_dash_digits h3 h2, h1]
    congr 1
    omega
  · rw [if_neg hneg, parseSigned_digits h3 h2, h1]
    congr 1
    omega

theorem cleanNumeric_int (n : Int) : cleanNumeric (Cell.int n) = n := by
  unfold cleanNumeric pyStrChars
  rw [List.filter_eq_self.mpr (intRepr_all_kept n), parseSigned_intRepr]
  rfl

theorem parseNoSign_digits_dot {xs fr : List Char} (hxs : xs ≠ [])
    (hdx : ∀ c ∈ xs, c.isDigit = true) (hdf : ∀ c ∈ fr, c.isDigit = true) :
    parseNoSign (xs ++ '.' :: fr) = some (digitsToNat xs) := by
  have hany : (xs ++ '.' :: fr).any (fun c => decide (c = '-')) = false := by
    rw [List.any_eq_false]
    intro c hc
    simp
    rcases List.mem_append.1 hc with h | h
    · exact digit_ne_dash (hdx c h)
    · rcases List.mem_cons.1 h with h | h
      · subst h; decide
      · exact digit_ne_dash (hdf c h)
  obtain ⟨htake, hdrop⟩ := @takeWhile_append_stop (fun c => !decide (c = '.')) xs '.' fr
    (fun c hc => by simp [digit_ne_dot (hdx c hc)]) (by simp)
  have hmem : ('.' : Char) ∉ fr := fun h => absurd rfl (digit_ne_dot (hdf _ h))
  unfold parseNoSign
  rw [hany]
  simp only [Bool.false_eq_true, if_false]
  rw [htake, hdrop]
  cases xs with
  | nil => exact absurd rfl hxs
  | cons a as => simp [hmem]

theorem cleanNumeric_float {ip : Int} {fr : List Char} (hfr : fr.all Char.isDigit = true) :
    cleanNumeric (Cell.float ip fr) = ip := by
  have hdf : ∀ c ∈ fr, c.isDigit = true := List.all_eq_true.1 hfr
  obtain ⟨h1, h2, h3⟩ := natDigits_spec ip.natAbs
  have hkeep : ∀ c ∈ pyStrChars (Cell.float ip fr), keepNumChar c = true := by
    intro c hc
    unfold pyStrChars at hc
    rcases List.mem_append.1 hc with h | h
    · exact intRepr_all_kept ip c h
    · rcases List.mem_cons.1 h with h | h
      · subst h; rfl
      · simp [keepNumChar, hdf c h]
  show (parseSigned ((pyStrChars (Cell.float ip fr)).filter keepNumChar)).getD 0 = ip
  rw [List.filter_eq_self.mpr hkeep]
  show (parseSigned (intRepr ip ++ '.' :: fr)).getD 0 = ip
  unfold intRepr
  by_cases hneg : ip < 0
  · rw [if_pos hneg]
    show (parseSigned ('-' :: (natDigits ip.natAbs ++ '.' :: fr))).getD 0 = ip
    unfold parseSigned
    rw [if_pos (by simp), List.tail_cons, parseNoSign_digits_dot h3 h2 hdf, h1]
    show -((ip.natAbs : Nat) : Int) = ip
    omega
  · rw [if_neg hneg]
    unfold parseSigned
    have hnd : ¬ (natDigits ip.natAbs ++ '.' :: fr).head? = some '-' := by
      cases hds : natDigits ip.natAbs with
      | nil => exact absurd hds h3
      | cons a as =>
        simp
        exact digit_ne_dash (h2 a (by rw [hds]; simp))
    rw [if_neg hnd, parseNoSign_digits_dot h3 h2 hdf, h1]
    show ((ip.natAbs : Nat) : Int) = ip
    omega

/-- C6: `clean_numeric` is idempotent — feeding its integer result back in
returns the same integer — and returns 0 for the empty string, for the
non-numeric string "abc", and for a missing value; it strips every character
except digits, `.` and `-` (the result depends only on the kept characters);
and it handles values that are already integer (returned unchanged) or
decimal (truncated to the integer part). -/
theorem C6_clean_numeric_idempotent :
    (∀ c : Cell, cleanNumeric (Cell.int (cleanNumeric c)) = cleanNumeric c) ∧
    cleanNumeric (Cell.str "") = 0 ∧
    cleanNumeric (Cell.str "abc") = 0 ∧
    cleanNumeric Cell.null = 0 ∧
    (∀ s : String, cleanNumeric (Cell.str s) =
      cleanNumeric (Cell.str (String.mk (s.data.filter keepNumChar)))) ∧
    (∀ n : Int, cleanNumeric (Cell.int n) = n) ∧
    (∀ (ip : Int) (fr : List Char), fr.all Char.isDigit = true →
      cleanNumeric (Cell.float ip fr) = ip) := by
  refine ⟨fun c => cleanNumeric_int _, by decide, by decide, by decide, ?_,
    cleanNumeric_int, fun ip fr h => cleanNumeric_float h⟩
  intro s
  show (parseSigned (s.data.filter keepNumChar)).getD 0
      = (parseSigned ((s.data.filter keepNumChar).filter keepNumChar)).getD 0
  simp [List.filter_filter]

/-- Witness for C6 at concrete inputs: a negative decimal cell truncates to
its integer part, an integer cell round-trips, and a currency string equals
its stripped form. -/
theorem C6_clean_numeric_idempotent_witness :
    cleanNumeric (Cell.float (-57) ['9']) = -57 ∧
    cleanNumeric (Cell.int 1234000) = 1234000 ∧
    cleanNumeric (Cell.str "1,234,000원")
      = cleanNumeric (Cell.str (String.mk ("1,234,000원".data.filter keepNumChar))) :=
  ⟨C6_clean_numeric_idempotent.2.2.2.2.2.2 (-57) ['9'] (by decide),
   C6_clean_numeric_idempotent.2.2.2.2.2.1 1234000,
   C6_clean_numeric_idempotent.2.2.2.2.1 "1,234,000원"⟩

/-- Model of the library call applied by `normalize_ym` (line 71),
`pd.to_datetime(value, errors="coerce")`, restricted to the ISO
`YYYY-MM-DD` date shape carried by the repository's date columns: on success
it yields the year and month, otherwise none (pandas NaT).  Which inputs
count as parseable is a parameter of the model; the properties proved about
`normalize_ym_elem` hold for either branch. -/
def parseDateYMD (s : String) : Option (Nat × Nat) :=
  match s.data with
  | [y1, y2, y3, y4, '-', m1, m2, '-', d1, d2] =>
    if y1.isDigit && y2.isDigit && y3.isDigit && y4.isDigit &&
       m1.isDigit && m2.isDigit && d1.isDigit && d2.isDigit then
      let y := digitsToNat [y1, y2, y3, y4]
      let m := digitsToNat [m1, m2]
      let d := digitsToNat [d1, d2]
      if 1 ≤ m ∧ m ≤ 12 ∧ 1 ≤ d ∧ d ≤ 31 then some (y, m) else none
    else none
  | _ => none

/-- Left pad a digit list with zeros to the given width. -/
def padLeftZeros (w : Nat) (cs : List Char) : List Char :=
  List.replicate (w - cs.length) '0' ++ cs

/-- Model of `s.dt.strftime("%Y-%m")` on one parsed date: zero-padded year
(width 4), a dash, zero-padded month (width 2). -/
def formatYM (y m : Nat) : String :=
  String.mk (padLeftZeros 4 (natDigits y) ++ '-' :: padLeftZeros 2 (natDigits m))

/-- Embedding of the per-element behaviour of `normalize_ym` (lines 67-78):
values that `pd.to_datetime` parses are formatted as `YYYY-MM`; for the
positions where parsing failed (NaT) the original string value is kept. -/
def normalize_ym_elem (v : String) : String :=
  match parseDateYMD v with
  | some ym => formatYM ym.1 ym.2
  | none => v

/-- Embedding of `EXCLUDE_INCOME_KEYWORDS` (line 92). -/
def EXCLUDE_INCOME_KEYWORDS : List String := ["외부", "비직원", "기타", "제외"]

/-- Embedding of `is_excluded_income_type` (lines 94-104): a missing value is
not excluded; the value is stringified and stripped, the empty result is not
excluded; otherwise the lowered value is tested for each lowered exclusion
keyword as a substring. -/
def is_excluded_income_type (value : Option String) : Bool :=
  match value with
  | none => false
  | some s =>
    let v := pyStrip s
    if v = "" then false
    else EXCLUDE_INCOME_KEYWORDS.any (fun kw => strContains (pyLower v) (pyLower kw))

/-- Labor-cost keywords of rule 3 (line 120). -/
def LABOR_KEYWORDS : List String := ["급여", "인건비", "상여", "일당", "급료", "4대보험"]

/-- Fixed-cost keywords of rule 4 (line 123). -/
def FIXED_COST_KEYWORDS : List String := ["임대료", "월세", "전세", "보증금", "건물관리비", "관리비"]

/-- Tax keywords of rule 5 (line 126). -/
def TAX_KEYWORDS : List String := ["부가세", "소득세", "원천세", "지방세", "세금"]

/-- Variable-cost keywords of rule 6 (line 129). -/
def VARIABLE_COST_KEYWORDS : List String :=
  ["광고", "홍보", "수수료", "카드수수료", "통신비", "전기료", "소모품", "잡비", "유류", "주유"]

/-- One ledger row as the classifier and aggregator see it.  `account` is the
value of the first column whose name contains "계정" (empty string when no
such column exists, matching `row.get(acc_col, "")`), `desc` is the value of
the "내용" column, `deposit`/`withdrawal` are the raw "입금"/"출금" cells and
`period` is the normalized "기준년월" value. -/
structure LedRow where
  period : String
  account : String
  desc : String
  deposit : Cell
  withdrawal : Cell
deriving DecidableEq, Repr

/-- Embedding of `categorize_ledger_row` (lines 106-135).  Note that the
source also computes `text = (account + " " + desc).lower()` but never reads
it: every test below is against `account` or `desc` alone, exactly as in the
source. -/
def categorize_ledger_row (r : LedRow) : String :=
  if strContains r.account "차대" || strContains r.account "상사이전"
      || strContains r.desc "매입" then "차량매입"
  else if strContains r.desc "판매" || strContains r.desc "매출" then "매출"
  else if LABOR_KEYWORDS.any (fun kw => strContains r.desc kw) then "인건비"
  else if FIXED_COST_KEYWORDS.any (fun kw => strContains r.desc kw) then "고정비"
  else if TAX_KEYWORDS.any (fun kw => strContains r.desc kw) then "세금"
  else if VARIABLE_COST_KEYWORDS.any (fun kw => strContains r.desc kw) then "변동비"
  else if strContains r.desc "광택" || strContains r.desc "판금"
      || strContains r.desc "정비" || strContains r.desc "수리" then "변동비"
  else "기타"

/-- Formalisation of claim C2's reading of the classifier, for comparison
with the source: every keyword test is a case-insensitive substring match
against the combined "account_label + description" text. -/
def categorize_combined_text_spec (account desc : String) : String :=
  let text := pyLower (account ++ " " ++ desc)
  if strContains text "차대" || strContains text "상사이전"
      || strContains text "매입" then "차량매입"
  else if strContains text "판매" || strContains text "매출" then "매출"
  else if LABOR_KEYWORDS.any (fun kw => strContains text (pyLower kw)) then "인건비"
  else if FIXED_COST_KEYWORDS.any (fun kw => strContains text (pyLower kw)) then "고정비"
  else if TAX_KEYWORDS.any (fun kw => strContains text (pyLower kw)) then "세금"
  else if VARIABLE_COST_KEYWORDS.any (fun kw => strContains text (pyLower kw)) then "변동비"
  else if strContains text "광택" || strContains text "판금"
      || strContains text "정비" || strContains text "수리" then "변동비"
  else "기타"

/-- The ordered rule chain of the classifier, as pairs of a predicate over
(account, desc) and the category returned on the first match; the seventh
rule is the default "기타" of `firstMatchCat`. -/
def CATEGORY_RULES : List ((String → String → Bool) × String) :=
  [(fun acc desc => strContains acc "차대" || strContains acc "상사이전"
      || strContains desc "매입", "차량매입"),
   (fun _ desc => strContains desc "판매" || strContains desc "매출", "매출"),
   (fun _ desc => LABOR_KEYWORDS.any (fun kw => strContains desc kw), "인건비"),
   (fun _ desc => FIXED_COST_KEYWORDS.any (fun kw => strContains desc kw), "고정비"),
   (fun _ desc => TAX_KEYWORDS.any (fun kw => strContains desc kw), "세금"),
   (fun _ desc => VARIABLE_COST_KEYWORDS.any (fun kw => strContains desc kw)
      || strContains desc "광택" || strContains desc "판금"
      || strContains desc "정비" || strContains desc "수리", "변동비")]

/-- First-match-wins evaluation of an ordered rule chain, defaulting to "기타". -/
def firstMatchCat (rules : List ((String → String → Bool) × String))
    (acc desc : String) : String :=
  match rules with
  | [] => "기타"
  | (p, c) :: rest => if p acc desc then c else firstMatchCat rest acc desc

/-- One employee-income row as the aggregator sees it: normalized period,
the "소득구분(고정/변동/퇴사 등)" cell (missing allowed), and the raw
"정산입금액" cell. -/
structure EmpRow where
  period : String
  incomeType : Option String
  settlement : Cell
deriving DecidableEq, Repr

/-- One vehicle-purchase row: normalized period and the raw "매입가액" cell. -/
structure PurRow where
  period : String
  purchase : Cell
deriving DecidableEq, Repr

/-- One reconditioning row: normalized period and the raw "비용(VAT포함)" cell. -/
structure InvRow where
  period : String
  cost : Cell
deriving DecidableEq, Repr

/-- One settlement line item, the row shape appended by
`compute_auto_month_summary` (columns of line 295). -/
structure LineItem where
  ym : String
  category : String
  detail : String
  amount : Int
  source : String
  note : String
deriving DecidableEq, Repr

/-- Employee rows of the requested period surviving the exclusion mask
(lines 246-250). -/
def empMonthRows (emp : List EmpRow) (ym : String) : List EmpRow :=
  (emp.filter (fun r => r.period = ym)).filter
    (fun r => !is_excluded_income_type r.incomeType)

/-- The summed settlement amount `total_emp` (line 254). -/
def laborTotal (emp : List EmpRow) (ym : String) : Int :=
  ((empMonthRows emp ym).map (fun r => cleanNumeric r.settlement)).sum

/-- The summed purchase amount `total_pur` (line 261). -/
def purTotal (pur : List PurRow) (ym : String) : Int :=
  ((pur.filter (fun r => r.period = ym)).map (fun r => cleanNumeric r.purchase)).sum

/-- The summed reconditioning cost `total_inv` (line 268). -/
def invTotal (inv : List InvRow) (ym : String) : Int :=
  ((inv.filter (fun r => r.period = ym)).map (fun r => cleanNumeric r.cost)).sum

/-- Ledger rows of the requested period, `led_month` (line 274). -/
def ledMonthRows (led : List LedRow) (ym : String) : List LedRow :=
  led.filter (fun r => r.period = ym)

/-- The summed deposits of Sales-classified rows with positive deposit,
`total_sales` (lines 280-281). -/
def salesTotal (ledMonth : List LedRow) : Int :=
  ((ledMonth.filter (fun r => decide (0 < cleanNumeric r.deposit)
      && decide (categorize_ledger_row r = "매출"))).map
    (fun r => cleanNumeric r.deposit)).sum

/-- Ledger rows with positive withdrawal, `expense_rows` (line 288). -/
def withdrawalRows (ledMonth : List LedRow) : List LedRow :=
  ledMonth.filter (fun r => decide (0 < cleanNumeric r.withdrawal))

/-- Per-category withdrawal sum within `expense_rows` (the groupby sum of
line 290). -/
def catWithdrawalTotal (rows : List LedRow) (cat : String) : Int :=
  ((rows.filter (fun r => categorize_ledger_row r = cat)).map
    (fun r => cleanNumeric r.withdrawal)).sum

/-- Order-preserving first-occurrence deduplication (the distinct group keys). -/
def dedupFirst (l : List String) : List String :=
  l.foldl (fun acc x => if x ∈ acc then acc else acc ++ [x]) []

/-- Lexicographic code-point comparison of character lists (Python string `<=`). -/
def charListLe : List Char → List Char → Bool
  | [], _ => true
  | _ :: _, [] => false
  | a :: as, b :: bs => if a = b then charListLe as bs else decide (a < b)

/-- Python string comparison `a <= b` by code points. -/
def pyStrLe (a b : String) : Bool := charListLe a.data b.data

/-- Insertion of a string into a sorted list (helper of `sortStrings`). -/
def insertSorted (x : String) : List String → List String
  | [] => [x]
  | y :: ys => if pyStrLe x y then x :: y :: ys else y :: insertSorted x ys

/-- Model of Python `sorted` on strings: insertion sort by code-point order
(agreeing with `sorted` on lists of distinct strings). -/
def sortStrings : List String → List String
  | [] => []
  | x :: xs => insertSorted x (sortStrings xs)

/-- The expense line items of lines 290-293: one item per distinct category
of the positive-withdrawal rows (pandas `groupby` iterates keys in sorted
order), skipping "매출" and zero sums. -/
def expenseItemsOf (rows : List LedRow) (ym : String) : List LineItem :=
  (sortStrings (dedupFirst (rows.map categorize_ledger_row))).filterMap
    (fun cat =>
      if cat = "매출" ∨ catWithdrawalTotal rows cat = 0 then none
      else some ⟨ym, cat, "장부 출금(" ++ cat ++ ")",
        catWithdrawalTotal rows cat, "장부", "자동분류"⟩)

/-- The employee-income block of `compute_auto_month_summary` (lines 244-256):
one Labor item when the filtered settlement sum is non-zero. -/
def laborBlock (emp : List EmpRow) (ym : String) : List LineItem :=
  if emp.isEmpty then [] else
  if laborTotal emp ym ≠ 0 then
    [⟨ym, "인건비", "직원소득(정산입금액)", laborTotal emp ym, "직원소득", "외부/비직원 제외"⟩]
  else []

/-- The vehicle-purchase block (lines 258-263). -/
def purBlock (pur : List PurRow) (ym : String) : List LineItem :=
  if pur.isEmpty then [] else
  if purTotal pur ym ≠ 0 then
    [⟨ym, "차량매입", "재활용차량 매입가액", purTotal pur ym, "차량매입", ""⟩]
  else []

/-- The reconditioning block (lines 265-270). -/
def invBlock (inv : List InvRow) (ym : String) : List LineItem :=
  if inv.isEmpty then [] else
  if invTotal inv ym ≠ 0 then
    [⟨ym, "변동비", "차량 상품화비", invTotal inv ym, "차량상품화", ""⟩]
  else []

/-- The ledger sales item (lines 279-283). -/
def salesBlock (ledMonth : List LedRow) (ym : String) : List LineItem :=
  if salesTotal ledMonth ≠ 0 then
    [⟨ym, "매출", "장부 매출(입금)", salesTotal ledMonth, "장부", ""⟩]
  else []

/-- The ledger grouped-expense items (lines 285-293). -/
def expenseBlock (ledMonth : List LedRow) (ym : String) : List LineItem :=
  if (withdrawalRows ledMonth).isEmpty then [] else
  expenseItemsOf (withdrawalRows ledMonth) ym

/-- The ledger block (lines 272-293): nothing when the ledger table or its
period slice is empty, else the sales item followed by the expense items. -/
def ledgerBlock (led : List LedRow) (ym : String) : List LineItem :=
  if led.isEmpty then [] else
  if (ledMonthRows led ym).isEmpty then [] else
  salesBlock (ledMonthRows led ym) ym ++ expenseBlock (ledMonthRows led ym) ym

/-- Embedding of `compute_auto_month_summary` (lines 238-298): the appended
`rows` list is the concatenation of the employee-income block, the
vehicle-purchase block, the reconditioning block, and the ledger block
(sales item then grouped expense items), each guarded exactly as in the
source (`df.empty` checks and non-zero-total checks). -/
def compute_auto_month_summary (emp : List EmpRow) (pur : List PurRow)
    (led : List LedRow) (inv : List InvRow) (ym : String) : List LineItem :=
  laborBlock emp ym ++ purBlock pur ym ++ invBlock inv ym ++ ledgerBlock led ym

/-- Embedding of the entity-index construction (lines 357-359 for employee
names, lines 473-475 for vehicle numbers): the concatenated column values
are deduplicated by `.unique()` (first occurrence kept), values whose
stripped form is empty are removed, and the survivors are sorted.  The
values themselves are kept as they appear in the data. -/
def buildCandidates (vals : List String) : List String :=
  sortStrings ((dedupFirst vals).filter (fun n => !(pyStrip n = "")))

/-- A loaded table, modelled as an opaque grid of cells.  The uniform period
normalization and date coercion applied after loading (lines 214-235) only
rewrite columns inside each table and never raise for present tables, so
they are omitted from this error-handling model, which tracks which tables
are produced. -/
abbrev Table := List (List String)

/-- Outcome of opening the consolidated workbook (lines 144-156): whether
`master_path` exists, and for each of the five named sheets the parse result
(`none` models a raised exception for that sheet or the workbook itself). -/
structure MasterFs where
  masterExists : Bool
  empSheet : Option Table
  purSheet : Option Table
  ledSheet : Option Table
  invSheet : Option Table
  monthSheet : Option Table
deriving DecidableEq, Repr

/-- Outcome of reading the five legacy files (lines 158-212): existence of
the income file (the minimum required one) and of the optional inventory and
report files, and each read attempt's result (`none` models an exception). -/
structure LegacyFs where
  incomeExists : Bool
  incomeParse : Option Table
  purchaseParse : Option Table
  ledgerParse : Option Table
  inventoryExists : Bool
  inventoryParse : Option Table
  reportExists : Bool
  reportParse : Option Table
deriving DecidableEq, Repr

/-- The five canonical tables returned by `load_data`. -/
structure DataDict where
  emp : Table
  pur : Table
  led : Table
  inv : Table
  month : Table
deriving DecidableEq, Repr

/-- Embedding of the control flow of `load_data` (lines 137-236).  In the
consolidated branch the five sheets are parsed inside one `try`, so any
sheet failure aborts the whole load with `None`; in the legacy branch each
table has its own `try/except` that substitutes an empty table, the missing
income file is the only `None` case, and the optional inventory/report files
yield empty tables when absent. -/
def load_data (m : MasterFs) (l : LegacyFs) : Option DataDict :=
  if m.masterExists then
    match m.empSheet, m.purSheet, m.ledSheet, m.invSheet, m.monthSheet with
    | some e, some p, some d, some i, some mo => some ⟨e, p, d, i, mo⟩
    | _, _, _, _, _ => none
  else if !l.incomeExists then none
  else some ⟨l.incomeParse.getD [], l.purchaseParse.getD [], l.ledgerParse.getD [],
    (if l.inventoryExists then l.inventoryParse.getD [] else []),
    (if l.reportExists then l.reportParse.getD [] else [])⟩

/-- C1: the ledger classifier is a total, deterministic pure function: every
row yields exactly one category from the fixed seven-element set; the result
depends only on the exposed account label and description; a description
containing "급여" classifies as 인건비 (Labor) when no earlier rule matches;
an account label containing "상사이전" classifies as 차량매입
(VehiclePurchase) regardless of the description; and a row matching none of
the keyword sets classifies as 기타 (Other). -/
theorem C1_classifier_total_deterministic :
    (∀ r : LedRow, categorize_ledger_row r ∈
      ["차량매입", "매출", "인건비", "고정비", "세금", "변동비", "기타"]) ∧
    (∀ r r2 : LedRow, r.account = r2.account → r.desc = r2.desc →
      categorize_ledger_row r = categorize_ledger_row r2) ∧
    (∀ r : LedRow, strContains r.desc "급여" = true →
      (strContains r.account "차대" || strContains r.account "상사이전"
        || strContains r.desc "매입") = false →
      (strContains r.desc "판매" || strContains r.desc "매출") = false →
      categorize_ledger_row r = "인건비") ∧
    (∀ r : LedRow, strContains r.account "상사이전" = true →
      categorize_ledger_row r = "차량매입") ∧
    (∀ r : LedRow,
      (strContains r.account "차대" || strContains r.account "상사이전"
        || strContains r.desc "매입") = false →
      (strContains r.desc "판매" || strContains r.desc "매출") = false →
      LABOR_KEYWORDS.any (fun kw => strContains r.desc kw) = false →
      FIXED_COST_KEYWORDS.any (fun kw => strContains r.desc kw) = false →
      TAX_KEYWORDS.any (fun kw => strContains r.desc kw) = false →
      VARIABLE_COST_KEYWORDS.any (fun kw => strContains r.desc kw) = false →
      (strContains r.desc "광택" || strContains r.desc "판금"
        || strContains r.desc "정비" || strContains r.desc "수리") = false →
      categorize_ledger_row r = "기타") := by
  refine ⟨?_, ?_, ?_, ?_, ?_⟩
  · intro r
    unfold categorize_ledger_row
    split_ifs <;> simp
  · intro r r2 ha hd
    unfold categorize_ledger_row
    rw [ha, hd]
  · intro r h1 h2 h3
    unfold categorize_ledger_row
    simp [h2, h3, LABOR_KEYWORDS, h1]
  · intro r h
    unfold categorize_ledger_row
    simp [h]
  · intro r h1 h2 h3 h4 h5 h6 h7
    unfold categorize_ledger_row
    simp [h1, h2, h3, h4, h5, h6, h7]

/-- Witness for C1 at concrete rows: a salary description is Labor, an
account label containing 상사이전 wins over a Sales-looking description, and
an unmatched row is Other. -/
theorem C1_classifier_witness :
    categorize_ledger_row ⟨"", "", "급여 지급", Cell.int 0, Cell.int 0⟩ = "인건비" ∧
    categorize_ledger_row ⟨"", "상사이전", "차량 판매", Cell.int 0, Cell.int 0⟩ = "차량매입" ∧
    categorize_ledger_row ⟨"", "", "알 수 없는 항목", Cell.int 0, Cell.int 0⟩ = "기타" :=
  ⟨C1_classifier_total_deterministic.2.2.1 _ (by decide) (by decide) (by decide),
   C1_classifier_total_deterministic.2.2.2.1 _ (by decide),
   C1_classifier_total_deterministic.2.2.2.2 _ (by decide) (by decide) (by decide)
     (by decide) (by decide) (by decide) (by decide)⟩

/-- C2 counterexample: the claim reads every keyword test as a substring
match against the combined "account_label + description" text, so an
account label "판매" (a rule-2 keyword) with an empty description would have
to classify as 매출 (Sales); the source tests rules 2-6 against the
description alone and returns 기타 (Other) for this row. -/
theorem C2_counterexample :
    categorize_combined_text_spec "판매" "" = "매출" ∧
    categorize_ledger_row ⟨"", "판매", "", Cell.int 0, Cell.int 0⟩ = "기타" ∧
    "기타" ≠ "매출" := by
  refine ⟨by decide, by decide, by decide⟩

/-- C2 amended: the classifier applies its seven rules in order with
first-match-wins semantics, but only rule 1 reads the account label (for
"차대"/"상사이전"; its "매입" test and all of rules 2-6 read the raw
description only, without case folding — the combined lowered text built by
the source is never used).  Consequently the outcome of rules 2-7 is
independent of the account label once rule 1 fails. -/
theorem C2_amended_rule_chain :
    (∀ r : LedRow,
      categorize_ledger_row r = firstMatchCat CATEGORY_RULES r.account r.desc) ∧
    (∀ (p p2 a a2 d : String) (dep dep2 wd wd2 : Cell),
      (strContains a "차대" || strContains a "상사이전"
        || strContains d "매입") = false →
      (strContains a2 "차대" || strContains a2 "상사이전"
        || strContains d "매입") = false →
      categorize_ledger_row ⟨p, a, d, dep, wd⟩
        = categorize_ledger_row ⟨p2, a2, d, dep2, wd2⟩) := by
  constructor
  · intro r
    unfold categorize_ledger_row CATEGORY_RULES
    simp only [firstMatchCat]
    refine if_congr Iff.rfl rfl ?_
    refine if_congr Iff.rfl rfl ?_
    refine if_congr Iff.rfl rfl ?_
    refine if_congr Iff.rfl rfl ?_
    refine if_congr Iff.rfl rfl ?_
    by_cases hv : VARIABLE_COST_KEYWORDS.any (fun kw => strContains r.desc kw) = true
    · simp [hv]
    · simp only [Bool.not_eq_true] at hv
      simp [hv]
  · intro p p2 a a2 d dep dep2 wd wd2 h1 h2
    unfold categorize_ledger_row
    simp only [h1, h2]

/-- Witness for C2's amended theorem: with the same description "전기료",
an account label "판매" (which would fire rule 2 under the combined-text
reading) does not change the outcome relative to an empty account label. -/
theorem C2_amended_rule_chain_witness :
    categorize_ledger_row ⟨"", "판매", "전기료", Cell.int 0, Cell.int 0⟩
      = categorize_ledger_row ⟨"x", "", "전기료", Cell.int 1, Cell.int 2⟩ :=
  C2_amended_rule_chain.2 "" "x" "판매" "" "전기료" (Cell.int 0) (Cell.int 1)
    (Cell.int 0) (Cell.int 2) (by decide) (by decide)

theorem formatYM_ne_empty (y m : Nat) : formatYM y m ≠ "" := by
  intro h
  have hd : padLeftZeros 4 (natDigits y) ++ '-' :: padLeftZeros 2 (natDigits m)
      = ("" : String).data := congrArg String.data h
  have he : ("" : String).data = [] := rfl
  rw [he] at hd
  exact absurd hd (by simp)

/-- C7: `normalize_ym` maps every value the date parser accepts to its
formatted `YYYY-MM` token, returns every unparseable value's original
string unchanged, and never returns the empty string unless the input was
empty; in particular "2024-03-15" becomes "2024-03" and the unparseable
"미정" is returned unchanged. -/
theorem C7_normalize_period :
    (∀ (v : String) (y m : Nat), parseDateYMD v = some (y, m) →
      normalize_ym_elem v = formatYM y m) ∧
    (∀ v : String, parseDateYMD v = none → normalize_ym_elem v = v) ∧
    (∀ v : String, v ≠ "" → normalize_ym_elem v ≠ "") ∧
    normalize_ym_elem "2024-03-15" = "2024-03" ∧
    normalize_ym_elem "미정" = "미정" := by
  refine ⟨?_, ?_, ?_, by decide, by decide⟩
  · intro v y m h
    unfold normalize_ym_elem
    rw [h]
  · intro v h
    unfold normalize_ym_elem
    rw [h]
  · intro v hv
    unfold normalize_ym_elem
    cases h : parseDateYMD v with
    | none => exact hv
    | some ym => exact formatYM_ne_empty ym.1 ym.2

/-- Witness for C7 at concrete inputs: the ISO date parses to (2024, 3) and
is formatted, and the unparseable "미정" is returned unchanged. -/
theorem C7_normalize_period_witness :
    normalize_ym_elem "2024-03-15" = formatYM 2024 3 ∧
    normalize_ym_elem "미정" = "미정" ∧ normalize_ym_elem "미정" ≠ "" :=
  ⟨C7_normalize_period.1 "2024-03-15" 2024 3 (by decide),
   C7_normalize_period.2.1 "미정" (by decide),
   C7_normalize_period.2.2.1 "미정" (by decide)⟩

theorem laborTotal_cons_included {r : EmpRow} {emp : List EmpRow} {ym : String}
    (hper : r.period = ym) (hexc : is_excluded_income_type r.incomeType = false) :
    laborTotal (r :: emp) ym = cleanNumeric r.settlement + laborTotal emp ym := by
  unfold laborTotal empMonthRows
  rw [List.filter_cons, if_pos (by simp [hper]), List.filter_cons,
    if_pos (by simp [hexc])]
  simp

theorem laborTotal_cons_excluded {r : EmpRow} {emp : List EmpRow} {ym : String}
    (hexc : is_excluded_income_type r.incomeType = true) :
    laborTotal (r :: emp) ym = laborTotal emp ym := by
  unfold laborTotal empMonthRows
  rw [List.filter_cons]
  by_cases hper : r.period = ym
  · rw [if_pos (by simp [hper]), List.filter_cons, if_neg (by simp [hexc])]
  · rw [if_neg (by simp [hper])]

/-- C10 (implicit): `is_excluded_income_type` returns false for a missing
value and for every string whose stripped form is empty, so employee-income
rows of the requested period with a missing or blank income-type label are
always included in the Labor settlement sum (their cleaned settlement amount
contributes to the total). -/
theorem C10_blank_income_type_included :
    is_excluded_income_type none = false ∧
    (∀ s : String, pyStrip s = "" → is_excluded_income_type (some s) = false) ∧
    (∀ (r : EmpRow) (emp : List EmpRow) (ym : String), r.period = ym →
      (r.incomeType = none ∨ ∃ s, r.incomeType = some s ∧ pyStrip s = "") →
      laborTotal (r :: emp) ym = cleanNumeric r.settlement + laborTotal emp ym) := by
  refine ⟨rfl, ?_, ?_⟩
  · intro s h
    unfold is_excluded_income_type
    simp [h]
  · intro r emp ym hper hblank
    have hexc : is_excluded_income_type r.incomeType = false := by
      rcases hblank with h | ⟨s, hs, hstrip⟩
      · rw [h]
        rfl
      · rw [hs]
        unfold is_excluded_income_type
        simp [hstrip]
    exact laborTotal_cons_included hper hexc

/-- Witness for C10: a whitespace-only income-type label is not excluded,
and a row with a missing label contributes its settlement amount to the
Labor sum. -/
theorem C10_blank_income_type_witness :
    is_excluded_income_type (some "   ") = false ∧
    laborTotal [⟨"2024-05", none, Cell.int 50000⟩] "2024-05"
      = cleanNumeric (Cell.int 50000) + laborTotal [] "2024-05" :=
  ⟨C10_blank_income_type_included.2.1 "   " (by decide),
   C10_blank_income_type_included.2.2 ⟨"2024-05", none, Cell.int 50000⟩ [] "2024-05"
     rfl (Or.inl rfl)⟩

theorem charListLe_trans : ∀ (as bs cs : List Char),
    charListLe as bs = true → charListLe bs cs = true → charListLe as cs = true := by
  intro as
  induction as with
  | nil => intro bs cs h1 h2; rfl
  | cons a as1 ih =>
    intro bs cs h1 h2
    cases bs with
    | nil => simp [charListLe] at h1
    | cons b bs1 =>
      cases cs with
      | nil => simp [charListLe] at h2
      | cons c cs1 =>
        simp only [charListLe] at h1 h2 ⊢
        by_cases hab : a = b
        · subst hab
          rw [if_pos rfl] at h1
          by_cases hac : a = c
          · subst hac
            rw [if_pos rfl] at h2
            rw [if_pos rfl]
            exact ih bs1 cs1 h1 h2
          · rw [if_neg hac] at h2
            rw [if_neg hac]
            exact h2
        · rw [if_neg hab] at h1
          have hab2 : a < b := of_decide_eq_true h1
          by_cases hbc : b = c
          · subst hbc
            rw [if_neg hab]
            exact h1
          · rw [if_neg hbc] at h2
            have hbc2 : b < c := of_decide_eq_true h2
            have hac : a < c := lt_trans hab2 hbc2
            rw [if_neg (ne_of_lt hac)]
            exact decide_eq_true hac

theorem charListLe_total : ∀ (as bs : List Char),
    charListLe as bs = true ∨ charListLe bs as = true := by
  intro as
  induction as with
  | nil => intro bs; left; rfl
  | cons a as1 ih =>
    intro bs
    cases bs with
    | nil => right; rfl
    | cons b bs1 =>
      simp only [charListLe]
      by_cases hab : a = b
      · subst hab
        rw [if_pos rfl, if_pos rfl]
        exact ih bs1
      · rw [if_neg hab, if_neg (Ne.symm hab)]
        rcases lt_or_gt_of_ne hab with h | h
        · left; exact decide_eq_true h
        · right; exact decide_eq_true h

theorem pyStrLe_trans {a b c : String} (h1 : pyStrLe a b = true)
    (h2 : pyStrLe b c = true) : pyStrLe a c = true :=
  charListLe_trans a.data b.data c.data h1 h2

theorem pyStrLe_total (a b : String) : pyStrLe a b = true ∨ pyStrLe b a = true :=
  charListLe_total a.data b.data

theorem mem_insertSorted {x a : String} :
    ∀ {l : List String}, a ∈ insertSorted x l ↔ a = x ∨ a ∈ l := by
  intro l
  induction l with
  | nil => simp [insertSorted]
  | cons y ys ih =>
    simp only [insertSorted]
    by_cases h : pyStrLe x y = true
    · rw [if_pos h]
      simp
    · rw [if_neg h]
      simp only [List.mem_cons, ih]
      tauto

theorem insertSorted_perm (x : String) :
    ∀ (l : List String), List.Perm (insertSorted x l) (x :: l) := by
  intro l
  induction l with
  | nil => exact List.Perm.refl _
  | cons y ys ih =>
    simp only [insertSorted]
    by_cases h : pyStrLe x y = true
    · rw [if_pos h]
    · rw [if_neg h]
      exact (List.Perm.cons y ih).trans (List.Perm.swap x y ys)

theorem sortStrings_perm : ∀ (l : List String), List.Perm (sortStrings l) l := by
  intro l
  induction l with
  | nil => exact List.Perm.refl _
  | cons x xs ih =>
    simp only [sortStrings]
    exact (insertSorted_perm x (sortStrings xs)).trans (List.Perm.cons x ih)

theorem mem_sortStrings {a : String} {l : List String} :
    a ∈ sortStrings l ↔ a ∈ l :=
  (sortStrings_perm l).mem_iff

theorem insertSorted_pairwise (x : String) :
    ∀ {l : List String}, l.Pairwise (fun a b => pyStrLe a b = true) →
      (insertSorted x l).Pairwise (fun a b => pyStrLe a b = true) := by
  intro l
  induction l with
  | nil => intro _; simp [insertSorted]
  | cons y ys ih =>
    intro hp
    rcases List.pairwise_cons.1 hp with ⟨hy, hys⟩
    simp only [insertSorted]
    by_cases h : pyStrLe x y = true
    · rw [if_pos h]
      refine List.pairwise_cons.2 ⟨?_, hp⟩
      intro b hb
      rcases List.mem_cons.1 hb with rfl | hb
      · exact h
      · exact pyStrLe_trans h (hy b hb)
    · rw [if_neg h]
      have hyx : pyStrLe y x = true := (pyStrLe_total x y).resolve_left h
      refine List.pairwise_cons.2 ⟨?_, ih hys⟩
      intro b hb
      rcases mem_insertSorted.1 hb with rfl | hb
      · exact hyx
      · exact hy b hb

theorem sortStrings_pairwise :
    ∀ (l : List String), (sortStrings l).Pairwise (fun a b => pyStrLe a b = true) := by
  intro l
  induction l with
  | nil => simp [sortStrings]
  | cons x xs ih =>
    simp only [sortStrings]
    exact insertSorted_pairwise x ih

theorem sortStrings_nodup {l : List String} (h : l.Nodup) : (sortStrings l).Nodup :=
  ((sortStrings_perm l).nodup_iff).2 h

theorem dedupFirst_go_mem : ∀ (l acc : List String) (a : String),
    (a ∈ l.foldl (fun acc x => if x ∈ acc then acc else acc ++ [x]) acc) ↔
      a ∈ acc ∨ a ∈ l := by
  intro l
  induction l with
  | nil => intro acc a; simp
  | cons x xs ih =>
    intro acc a
    simp only [List.foldl_cons]
    by_cases hx : x ∈ acc
    · rw [if_pos hx, ih]
      constructor
      · rintro (h | h)
        · exact Or.inl h
        · exact Or.inr (List.mem_cons_of_mem x h)
      · rintro (h | h)
        · exact Or.inl h
        · rcases List.mem_cons.1 h with rfl | h
          · exact Or.inl hx
          · exact Or.inr h
    · rw [if_neg hx, ih]
      simp only [List.mem_append, List.mem_singleton, List.mem_cons]
      tauto

theorem mem_dedupFirst {a : String} {l : List String} :
    a ∈ dedupFirst l ↔ a ∈ l := by
  unfold dedupFirst
  rw [dedupFirst_go_mem]
  simp

theorem dedupFirst_go_nodup : ∀ (l acc : List String), acc.Nodup →
    (l.foldl (fun acc x => if x ∈ acc then acc else acc ++ [x]) acc).Nodup := by
  intro l
  induction l with
  | nil => intro acc h; simpa using h
  | cons x xs ih =>
    intro acc h
    simp only [List.foldl_cons]
    by_cases hx : x ∈ acc
    · rw [if_pos hx]
      exact ih acc h
    · rw [if_neg hx]
      refine ih (acc ++ [x]) ?_
      simp [List.nodup_append, h, hx]

theorem dedupFirst_nodup (l : List String) : (dedupFirst l).Nodup :=
  dedupFirst_go_nodup l [] (by simp)

/-- C8 counterexample: the candidate builder does not trim surviving values.
The input [" Kim"] (with a leading space) survives the blank filter and is
returned verbatim, still carrying its whitespace, while the claim requires
the output values to be whitespace-trimmed. -/
theorem C8_counterexample :
    buildCandidates [" Kim"] = [" Kim"] ∧ pyStrip " Kim" ≠ " Kim" := by
  refine ⟨by decide, by decide⟩

/-- C8 amended: the entity index builder yields a sorted (code-point order)
sequence of pairwise-distinct values drawn verbatim from the input, keeping
exactly the values whose stripped form is non-empty (whitespace-only and
empty entries are removed, but survivors are not themselves trimmed); on
["  ", "Kim", "Kim", "", "Lee"] it yields exactly ["Kim", "Lee"]. -/
theorem C8_amended_entity_index :
    (∀ vals : List String,
      (buildCandidates vals).Pairwise (fun a b => pyStrLe a b = true) ∧
      (buildCandidates vals).Nodup ∧
      (∀ s ∈ buildCandidates vals, pyStrip s ≠ "" ∧ s ∈ vals) ∧
      (∀ s ∈ vals, pyStrip s ≠ "" → s ∈ buildCandidates vals)) ∧
    buildCandidates ["  ", "Kim", "Kim", "", "Lee"] = ["Kim", "Lee"] := by
  refine ⟨?_, by decide⟩
  intro vals
  refine ⟨sortStrings_pairwise _, sortStrings_nodup (List.Nodup.filter _ (dedupFirst_nodup vals)), ?_, ?_⟩
  · intro s hs
    have hs2 := mem_sortStrings.1 hs
    have hs3 := List.of_mem_filter hs2
    have hs4 := List.mem_of_mem_filter hs2
    constructor
    · simpa using hs3
    · exact mem_dedupFirst.1 hs4
  · intro s hs hstrip
    refine mem_sortStrings.2 (List.mem_filter.2 ⟨mem_dedupFirst.2 hs, by simpa using hstrip⟩)

/-- Witness for C8's amended theorem at the concrete input of the claim:
"Kim" is among the built candidates because its stripped form is non-empty,
and every produced candidate is non-blank. -/
theorem C8_amended_entity_index_witness :
    "Kim" ∈ buildCandidates ["  ", "Kim", "Kim", "", "Lee"] ∧
    (pyStrip "Lee" ≠ "" ∧ "Lee" ∈ ["  ", "Kim", "Kim", "", "Lee"]) :=
  ⟨(C8_amended_entity_index.1 ["  ", "Kim", "Kim", "", "Lee"]).2.2.2 "Kim"
      (by decide) (by decide),
   (C8_amended_entity_index.1 ["  ", "Kim", "Kim", "", "Lee"]).2.2.1 "Lee" (by decide)⟩

/-- C9 counterexample: with the consolidated workbook present, a single
sheet's failure (here the ledger sheet) makes `load_data` return the `None`
sentinel even though the other four sheets parsed, while the claim requires
an empty table for the failed table only, with the others still loaded. -/
theorem C9_counterexample :
    load_data ⟨true, some [["헤더"]], some [], none, some [], some []⟩
        ⟨true, some [], some [], some [], true, some [], true, some []⟩ = none ∧
    (⟨true, some [["헤더"]], some [], none, some [], some []⟩ : MasterFs).ledSheet = none ∧
    (⟨true, some [["헤더"]], some [], none, some [], some []⟩ : MasterFs).empSheet.isSome = true := by
  refine ⟨by decide, rfl, rfl⟩

/-- C9 amended: per-table failure isolation holds only in the legacy
(individual files) path: there, each table's read failure yields an empty
table for that table only and the others are still loaded, the absent
optional files yield empty tables, and a missing income file yields the
`None` sentinel; in the consolidated path any sheet failure yields `None`
for the whole load. -/
theorem C9_amended_load_isolation :
    (∀ (m : MasterFs) (l : LegacyFs), m.masterExists = false → l.incomeExists = true →
      load_data m l = some ⟨l.incomeParse.getD [], l.purchaseParse.getD [],
        l.ledgerParse.getD [],
        (if l.inventoryExists then l.inventoryParse.getD [] else []),
        (if l.reportExists then l.reportParse.getD [] else [])⟩) ∧
    (∀ (m : MasterFs) (l : LegacyFs), m.masterExists = false → l.incomeExists = false →
      load_data m l = none) ∧
    (∀ (m : MasterFs) (l : LegacyFs), m.masterExists = true →
      (m.empSheet = none ∨ m.purSheet = none ∨ m.ledSheet = none ∨
        m.invSheet = none ∨ m.monthSheet = none) →
      load_data m l = none) := by
  refine ⟨?_, ?_, ?_⟩
  · intro m l hm hi
    unfold load_data
    rw [hm, hi]
    rfl
  · intro m l hm hi
    unfold load_data
    rw [hm, hi]
    rfl
  · intro m l hm hfail
    obtain ⟨me, e, p, d, i, mo⟩ := m
    simp only at hm
    subst hm
    simp only at hfail
    unfold load_data
    simp only [if_pos rfl]
    cases e <;> cases p <;> cases d <;> cases i <;> cases mo <;> simp_all

/-- Witness for C9's amended theorem: in the legacy path a failed ledger
read yields an empty ledger table while the income, purchase and inventory
tables are still loaded; and with no consolidated file and no income file
the load returns the sentinel. -/
theorem C9_amended_load_isolation_witness :
    load_data ⟨false, none, none, none, none, none⟩
        ⟨true, some [["a"]], some [["b"]], none, true, some [["c"]], false, none⟩
      = some ⟨[["a"]], [["b"]], [], [["c"]], []⟩ ∧
    load_data ⟨false, none, none, none, none, none⟩
        ⟨false, none, none, none, false, none, false, none⟩ = none :=
  ⟨C9_amended_load_isolation.1 ⟨false, none, none, none, none, none⟩
      ⟨true, some [["a"]], some [["b"]], none, true, some [["c"]], false, none⟩ rfl rfl,
   C9_amended_load_isolation.2.1 ⟨false, none, none, none, none, none⟩
      ⟨false, none, none, none, false, none, false, none⟩ rfl rfl⟩

theorem mem_guarded_single {α : Type} {c d : Prop} [Decidable c] [Decidable d]
    {x y : α} (h : y ∈ (if c then ([] : List α) else if d then [x] else [])) :
    y = x ∧ d := by
  split_ifs at h with h1 h2
  · cases h
  · exact ⟨List.mem_singleton.1 h, h2⟩
  · cases h

theorem laborBlock_mem {emp : List EmpRow} {ym : String} {it : LineItem}
    (h : it ∈ laborBlock emp ym) :
    it = ⟨ym, "인건비", "직원소득(정산입금액)", laborTotal emp ym, "직원소득", "외부/비직원 제외"⟩
      ∧ laborTotal emp ym ≠ 0 := by
  unfold laborBlock at h
  exact mem_guarded_single h

theorem purBlock_mem {pur : List PurRow} {ym : String} {it : LineItem}
    (h : it ∈ purBlock pur ym) :
    it = ⟨ym, "차량매입", "재활용차량 매입가액", purTotal pur ym, "차량매입", ""⟩
      ∧ purTotal pur ym ≠ 0 := by
  unfold purBlock at h
  exact mem_guarded_single h

theorem invBlock_mem {inv : List InvRow} {ym : String} {it : LineItem}
    (h : it ∈ invBlock inv ym) :
    it = ⟨ym, "변동비", "차량 상품화비", invTotal inv ym, "차량상품화", ""⟩
      ∧ invTotal inv ym ≠ 0 := by
  unfold invBlock at h
  exact mem_guarded_single h

theorem salesBlock_mem {lm : List LedRow} {ym : String} {it : LineItem}
    (h : it ∈ salesBlock lm ym) :
    it = ⟨ym, "매출", "장부 매출(입금)", salesTotal lm, "장부", ""⟩
      ∧ salesTotal lm ≠ 0 := by
  unfold salesBlock at h
  split_ifs at h with hd
  · exact ⟨List.mem_singleton.1 h, hd⟩
  · cases h

theorem expenseItemsOf_mem {rows : List LedRow} {ym : String} {it : LineItem}
    (h : it ∈ expenseItemsOf rows ym) :
    it.ym = ym ∧ it.source = "장부" ∧ it.note = "자동분류" ∧ it.category ≠ "매출" ∧
    it.amount = catWithdrawalTotal rows it.category ∧ it.amount ≠ 0 := by
  unfold expenseItemsOf at h
  rcases List.mem_filterMap.1 h with ⟨c, hc, hsome⟩
  by_cases hskip : c = "매출" ∨ catWithdrawalTotal rows c = 0
  · rw [if_pos hskip] at hsome
    cases hsome
  · rw [if_neg hskip] at hsome
    push_neg at hskip
    injection hsome with he
    subst he
    exact ⟨rfl, rfl, rfl, hskip.1, rfl, hskip.2⟩

theorem expenseItemsOf_mem_of {rows : List LedRow} {ym cat : String}
    (hne : cat ≠ "매출") (htot : catWithdrawalTotal rows cat ≠ 0)
    (hmem : cat ∈ rows.map categorize_ledger_row) :
    (⟨ym, cat, "장부 출금(" ++ cat ++ ")", catWithdrawalTotal rows cat,
      "장부", "자동분류"⟩ : LineItem) ∈ expenseItemsOf rows ym := by
  unfold expenseItemsOf
  refine List.mem_filterMap.2 ⟨cat, mem_sortStrings.2 (mem_dedupFirst.2 hmem), ?_⟩
  rw [if_neg (by tauto)]

theorem catWithdrawalTotal_mem {rows : List LedRow} {cat : String}
    (h : catWithdrawalTotal rows cat ≠ 0) :
    cat ∈ rows.map categorize_ledger_row := by
  by_contra hmem
  apply h
  unfold catWithdrawalTotal
  rw [List.filter_eq_nil_iff.2 (fun r hr => by
    simp only [decide_eq_true_eq]
    intro hcat
    exact hmem (List.mem_map.2 ⟨r, hr, hcat⟩))]
  rfl

theorem expenseBlock_mem {lm : List LedRow} {ym : String} {it : LineItem}
    (h : it ∈ expenseBlock lm ym) : it ∈ expenseItemsOf (withdrawalRows lm) ym := by
  unfold expenseBlock at h
  split_ifs at h
  · cases h
  · exact h

theorem ledgerBlock_mem {led : List LedRow} {ym : String} {it : LineItem}
    (h : it ∈ ledgerBlock led ym) :
    it ∈ salesBlock (ledMonthRows led ym) ym ∨
      it ∈ expenseBlock (ledMonthRows led ym) ym := by
  unfold ledgerBlock at h
  split_ifs at h
  · cases h
  · cases h
  · exact List.mem_append.1 h

theorem laborBlock_src {emp : List EmpRow} {ym : String} {it : LineItem}
    (h : it ∈ laborBlock emp ym) : it.source = "직원소득" := by
  rcases laborBlock_mem h with ⟨rfl, _⟩
  rfl

theorem purBlock_src {pur : List PurRow} {ym : String} {it : LineItem}
    (h : it ∈ purBlock pur ym) : it.source = "차량매입" := by
  rcases purBlock_mem h with ⟨rfl, _⟩
  rfl

theorem invBlock_src {inv : List InvRow} {ym : String} {it : LineItem}
    (h : it ∈ invBlock inv ym) : it.source = "차량상품화" := by
  rcases invBlock_mem h with ⟨rfl, _⟩
  rfl

theorem ledgerBlock_src {led : List LedRow} {ym : String} {it : LineItem}
    (h : it ∈ ledgerBlock led ym) : it.source = "장부" := by
  rcases ledgerBlock_mem h with h | h
  · rcases salesBlock_mem h with ⟨rfl, _⟩
    rfl
  · exact (expenseItemsOf_mem (expenseBlock_mem h)).2.1

theorem ledMonthRows_nil (ym : String) : ledMonthRows [] ym = [] := rfl

theorem salesBlock_nil (ym : String) : salesBlock [] ym = [] := by
  simp [salesBlock, salesTotal]

theorem expenseBlock_nil (ym : String) : expenseBlock [] ym = [] := rfl

theorem ledgerBlock_eq (led : List LedRow) (ym : String) :
    ledgerBlock led ym
      = salesBlock (ledMonthRows led ym) ym ++ expenseBlock (ledMonthRows led ym) ym := by
  unfold ledgerBlock
  split_ifs with h1 h2
  · have hnil : led = [] := List.isEmpty_iff.1 h1
    subst hnil
    rw [ledMonthRows_nil, salesBlock_nil, expenseBlock_nil]
    rfl
  · have hnil : ledMonthRows led ym = [] := List.isEmpty_iff.1 h2
    rw [hnil, salesBlock_nil, expenseBlock_nil]
    rfl
  · rfl

theorem compute_filter_labor (emp : List EmpRow) (pur : List PurRow)
    (led : List LedRow) (inv : List InvRow) (ym : String) :
    (compute_auto_month_summary emp pur led inv ym).filter
        (fun it => it.source = "직원소득") = laborBlock emp ym := by
  unfold compute_auto_month_summary
  rw [List.filter_append, List.filter_append, List.filter_append]
  rw [List.filter_eq_self.2 (fun it hit => by simp [laborBlock_src hit]),
    List.filter_eq_nil_iff.2 (fun it hit => by simp [purBlock_src hit]),
    List.filter_eq_nil_iff.2 (fun it hit => by simp [invBlock_src hit]),
    List.filter_eq_nil_iff.2 (fun it hit => by simp [ledgerBlock_src hit])]
  simp

theorem compute_filter_pur (emp : List EmpRow) (pur : List PurRow)
    (led : List LedRow) (inv : List InvRow) (ym : String) :
    (compute_auto_month_summary emp pur led inv ym).filter
        (fun it => it.source = "차량매입") = purBlock pur ym := by
  unfold compute_auto_month_summary
  rw [List.filter_append, List.filter_append, List.filter_append]
  rw [List.filter_eq_nil_iff.2 (fun it hit => by simp [laborBlock_src hit]),
    List.filter_eq_self.2 (fun it hit => by simp [purBlock_src hit]),
    List.filter_eq_nil_iff.2 (fun it hit => by simp [invBlock_src hit]),
    List.filter_eq_nil_iff.2 (fun it hit => by simp [ledgerBlock_src hit])]
  simp

theorem compute_filter_inv (emp : List EmpRow) (pur : List PurRow)
    (led : List LedRow) (inv : List InvRow) (ym : String) :
    (compute_auto_month_summary emp pur led inv ym).filter
        (fun it => it.source = "차량상품화") = invBlock inv ym := by
  unfold compute_auto_month_summary
  rw [List.filter_append, List.filter_append, List.filter_append]
  rw [List.filter_eq_nil_iff.2 (fun it hit => by simp [laborBlock_src hit]),
    List.filter_eq_nil_iff.2 (fun it hit => by simp [purBlock_src hit]),
    List.filter_eq_self.2 (fun it hit => by simp [invBlock_src hit]),
    List.filter_eq_nil_iff.2 (fun it hit => by simp [ledgerBlock_src hit])]
  simp

theorem compute_filter_sales (emp : List EmpRow) (pur : List PurRow)
    (led : List LedRow) (inv : List InvRow) (ym : String) :
    (compute_auto_month_summary emp pur led inv ym).filter
        (fun it => it.source = "장부" ∧ it.note = "")
      = salesBlock (ledMonthRows led ym) ym := by
  unfold compute_auto_month_summary
  rw [List.filter_append, List.filter_append, List.filter_append]
  rw [List.filter_eq_nil_iff.2 (fun it hit => by simp [laborBlock_src hit]),
    List.filter_eq_nil_iff.2 (fun it hit => by simp [purBlock_src hit]),
    List.filter_eq_nil_iff.2 (fun it hit => by simp [invBlock_src hit])]
  rw [ledgerBlock_eq, List.filter_append]
  rw [List.filter_eq_self.2 (fun it hit => by
      rcases salesBlock_mem hit with ⟨rfl, _⟩
      simp),
    List.filter_eq_nil_iff.2 (fun it hit => by
      have hnote := (expenseItemsOf_mem (expenseBlock_mem hit)).2.2.1
      simp [hnote])]
  simp

theorem compute_filter_expense (emp : List EmpRow) (pur : List PurRow)
    (led : List LedRow) (inv : List InvRow) (ym : String) :
    (compute_auto_month_summary emp pur led inv ym).filter
        (fun it => it.source = "장부" ∧ it.note = "자동분류")
      = expenseBlock (ledMonthRows led ym) ym := by
  unfold compute_auto_month_summary
  rw [List.filter_append, List.filter_append, List.filter_append]
  rw [List.filter_eq_nil_iff.2 (fun it hit => by simp [laborBlock_src hit]),
    List.filter_eq_nil_iff.2 (fun it hit => by simp [purBlock_src hit]),
    List.filter_eq_nil_iff.2 (fun it hit => by simp [invBlock_src hit])]
  rw [ledgerBlock_eq, List.filter_append]
  rw [List.filter_eq_nil_iff.2 (fun it hit => by
      rcases salesBlock_mem hit with ⟨rfl, _⟩
      simp),
    List.filter_eq_self.2 (fun it hit => by
      have hm := expenseItemsOf_mem (expenseBlock_mem hit)
      simp [hm.2.1, hm.2.2.1])]
  simp

theorem laborBlock_eq (emp : List EmpRow) (ym : String) :
    laborBlock emp ym
      = if laborTotal emp ym = 0 then []
        else [⟨ym, "인건비", "직원소득(정산입금액)", laborTotal emp ym,
          "직원소득", "외부/비직원 제외"⟩] := by
  unfold laborBlock
  by_cases he : emp.isEmpty
  · rw [if_pos he]
    have hnil : emp = [] := List.isEmpty_iff.1 he
    subst hnil
    simp [laborTotal, empMonthRows]
  · rw [if_neg he]
    by_cases h0 : laborTotal emp ym = 0
    · simp [h0]
    · simp [h0]

/-- C3: the aggregator's Labor line item is the filtered settlement sum —
the "직원소득"-tagged output of a period is exactly one item carrying
`laborTotal` (the sum of cleaned 정산입금액 over the period's rows surviving
the exclusion mask) when that sum is non-zero, and nothing otherwise;
a period row whose income-type label is excluded (such as "외부") does not
change the sum; and "외부" is indeed an excluded label. -/
theorem C3_labor_aggregation :
    ∀ (emp : List EmpRow) (pur : List PurRow) (led : List LedRow)
      (inv : List InvRow) (ym : String),
      ((compute_auto_month_summary emp pur led inv ym).filter
          (fun it => it.source = "직원소득")
        = if laborTotal emp ym = 0 then []
          else [⟨ym, "인건비", "직원소득(정산입금액)", laborTotal emp ym,
            "직원소득", "외부/비직원 제외"⟩]) ∧
      (∀ r : EmpRow, is_excluded_income_type r.incomeType = true →
        laborTotal (r :: emp) ym = laborTotal emp ym) ∧
      is_excluded_income_type (some "외부") = true := by
  intro emp pur led inv ym
  refine ⟨?_, ?_, by decide⟩
  · rw [compute_filter_labor, laborBlock_eq]
  · intro r hexc
    exact laborTotal_cons_excluded hexc

/-- Witness for C3: two included rows with settlement amounts 100000 and
200000 in period 2024-05 produce the single Labor item of amount 300000,
and prepending a period row labelled "외부" leaves the sum unchanged. -/
theorem C3_labor_aggregation_witness :
    (compute_auto_month_summary
        [⟨"2024-05", some "직원", Cell.int 100000⟩, ⟨"2024-05", some "직원", Cell.int 200000⟩]
        [] [] [] "2024-05").filter (fun it => it.source = "직원소득")
      = [⟨"2024-05", "인건비", "직원소득(정산입금액)", 300000, "직원소득", "외부/비직원 제외"⟩] ∧
    laborTotal (⟨"2024-05", some "외부", Cell.int 999999⟩ ::
        [⟨"2024-05", some "직원", Cell.int 100000⟩, ⟨"2024-05", some "직원", Cell.int 200000⟩])
        "2024-05"
      = laborTotal
          [⟨"2024-05", some "직원", Cell.int 100000⟩, ⟨"2024-05", some "직원", Cell.int 200000⟩]
          "2024-05" := by
  constructor
  · rw [(C3_labor_aggregation _ [] [] [] "2024-05").1]
    decide
  · exact (C3_labor_aggregation
      [⟨"2024-05", some "직원", Cell.int 100000⟩, ⟨"2024-05", some "직원", Cell.int 200000⟩]
      [] [] [] "2024-05").2.1 ⟨"2024-05", some "외부", Cell.int 999999⟩ (by decide)

theorem laborTotal_zero_of_no_period {emp : List EmpRow} {ym : String}
    (h : ∀ r ∈ emp, r.period ≠ ym) : laborTotal emp ym = 0 := by
  have hin : List.filter (fun r => decide (r.period = ym)) emp = [] :=
    List.filter_eq_nil_iff.2 (fun r hr => by simp [h r hr])
  unfold laborTotal empMonthRows
  rw [hin]
  rfl

theorem purTotal_zero_of_no_period {pur : List PurRow} {ym : String}
    (h : ∀ r ∈ pur, r.period ≠ ym) : purTotal pur ym = 0 := by
  unfold purTotal
  rw [List.filter_eq_nil_iff.2 (fun r hr => by simp [h r hr])]
  rfl

theorem invTotal_zero_of_no_period {inv : List InvRow} {ym : String}
    (h : ∀ r ∈ inv, r.period ≠ ym) : invTotal inv ym = 0 := by
  unfold invTotal
  rw [List.filter_eq_nil_iff.2 (fun r hr => by simp [h r hr])]
  rfl

/-- C5: the aggregator's output is sparse — a period with no matching row in
any of the four source tables yields the empty sequence, and every line item
that is emitted carries a non-zero amount (a zero sum produces absence, not
a zero-amount row). -/
theorem C5_sparse_output :
    ∀ (emp : List EmpRow) (pur : List PurRow) (led : List LedRow)
      (inv : List InvRow) (ym : String),
      ((∀ r ∈ emp, r.period ≠ ym) → (∀ r ∈ pur, r.period ≠ ym) →
        (∀ r ∈ led, r.period ≠ ym) → (∀ r ∈ inv, r.period ≠ ym) →
        compute_auto_month_summary emp pur led inv ym = []) ∧
      (∀ it ∈ compute_auto_month_summary emp pur led inv ym, it.amount ≠ 0) := by
  intro emp pur led inv ym
  constructor
  · intro h1 h2 h3 h4
    have hl := laborTotal_zero_of_no_period h1
    have hp := purTotal_zero_of_no_period h2
    have hi := invTotal_zero_of_no_period h4
    have hld : ledMonthRows led ym = [] :=
      List.filter_eq_nil_iff.2 (fun r hr => by simp [h3 r hr])
    unfold compute_auto_month_summary
    rw [ledgerBlock_eq, hld, salesBlock_nil, expenseBlock_nil]
    simp [laborBlock, purBlock, invBlock, hl, hp, hi]
  · intro it hit
    unfold compute_auto_month_summary at hit
    rcases List.mem_append.1 hit with h | h
    · rcases List.mem_append.1 h with h | h
      · rcases List.mem_append.1 h with h | h
        · rcases laborBlock_mem h with ⟨rfl, hne⟩
          exact hne
        · rcases purBlock_mem h with ⟨rfl, hne⟩
          exact hne
      · rcases invBlock_mem h with ⟨rfl, hne⟩
        exact hne
    · rcases ledgerBlock_mem h with h | h
      · rcases salesBlock_mem h with ⟨rfl, hne⟩
        exact hne
      · exact (expenseItemsOf_mem (expenseBlock_mem h)).2.2.2.2.2

/-- Witness for C5: four non-empty tables, none of whose rows fall in period
2024-05, yield the empty summary. -/
theorem C5_sparse_output_witness :
    compute_auto_month_summary [⟨"2024-01", some "직원", Cell.int 5⟩]
        [⟨"2024-02", Cell.int 7⟩]
        [⟨"2024-03", "장부", "급여", Cell.int 1, Cell.int 2⟩]
        [⟨"2024-04", Cell.int 9⟩] "2024-05" = [] :=
  (C5_sparse_output _ _ _ _ "2024-05").1 (by decide) (by decide) (by decide) (by decide)

theorem salesBlock_eq (lm : List LedRow) (ym : String) :
    salesBlock lm ym
      = if salesTotal lm = 0 then []
        else [⟨ym, "매출", "장부 매출(입금)", salesTotal lm, "장부", ""⟩] := by
  unfold salesBlock
  by_cases h0 : salesTotal lm = 0
  · simp [h0]
  · simp [h0]

/-- C4: the ledger step of the aggregator emits one Sales item whose amount
is the deposit sum over the period's Sales-classified rows with positive
deposit (only when non-zero); among the period's positive-withdrawal rows it
emits exactly one "자동분류"-noted item per classification category other
than 매출 with that category's non-zero withdrawal sum; and the output
sequence is ordered Labor, VehiclePurchase, Reconditioning, Sales, then the
ledger-expense categories (the function is pure, so the order is stable
across identical inputs). -/
theorem C4_ledger_aggregation :
    ∀ (emp : List EmpRow) (pur : List PurRow) (led : List LedRow)
      (inv : List InvRow) (ym : String),
      ((compute_auto_month_summary emp pur led inv ym).filter
          (fun it => it.source = "장부" ∧ it.note = "")
        = if salesTotal (ledMonthRows led ym) = 0 then []
          else [⟨ym, "매출", "장부 매출(입금)", salesTotal (ledMonthRows led ym), "장부", ""⟩]) ∧
      (∀ cat : String,
        (∃ it ∈ compute_auto_month_summary emp pur led inv ym,
            it.source = "장부" ∧ it.note = "자동분류" ∧ it.category = cat ∧
            it.amount = catWithdrawalTotal (withdrawalRows (ledMonthRows led ym)) cat)
          ↔ (cat ≠ "매출" ∧
              catWithdrawalTotal (withdrawalRows (ledMonthRows led ym)) cat ≠ 0)) ∧
      (compute_auto_month_summary emp pur led inv ym
        = (compute_auto_month_summary emp pur led inv ym).filter
            (fun it => it.source = "직원소득")
          ++ (compute_auto_month_summary emp pur led inv ym).filter
            (fun it => it.source = "차량매입")
          ++ (compute_auto_month_summary emp pur led inv ym).filter
            (fun it => it.source = "차량상품화")
          ++ (compute_auto_month_summary emp pur led inv ym).filter
            (fun it => it.source = "장부" ∧ it.note = "")
          ++ (compute_auto_month_summary emp pur led inv ym).filter
            (fun it => it.source = "장부" ∧ it.note = "자동분류")) := by
  intro emp pur led inv ym
  refine ⟨?_, ?_, ?_⟩
  · rw [compute_filter_sales, salesBlock_eq]
  · intro cat
    constructor
    · rintro ⟨it, hmem, hsrc, hnote, hcat, hamt⟩
      unfold compute_auto_month_summary at hmem
      rcases List.mem_append.1 hmem with h | h
      · rcases List.mem_append.1 h with h | h
        · rcases List.mem_append.1 h with h | h
          · rw [laborBlock_src h] at hsrc
            exact absurd hsrc (by decide)
          · rw [purBlock_src h] at hsrc
            exact absurd hsrc (by decide)
        · rw [invBlock_src h] at hsrc
          exact absurd hsrc (by decide)
      · rcases ledgerBlock_mem h with h | h
        · rcases salesBlock_mem h with ⟨rfl, _⟩
          simp at hnote
        · have hm := expenseItemsOf_mem (expenseBlock_mem h)
          subst hcat
          refine ⟨hm.2.2.2.1, ?_⟩
          rw [← hm.2.2.2.2.1]
          exact hm.2.2.2.2.2
    · rintro ⟨hne, htot⟩
      have hmap := catWithdrawalTotal_mem htot
      have hrows_ne : withdrawalRows (ledMonthRows led ym) ≠ [] := by
        intro hnil
        rw [hnil] at hmap
        simp at hmap
      have hlm_ne : ledMonthRows led ym ≠ [] := by
        intro hnil
        rw [hnil] at hrows_ne
        exact hrows_ne rfl
      have hled_ne : led ≠ [] := by
        intro hnil
        rw [hnil] at hlm_ne
        exact hlm_ne rfl
      refine ⟨⟨ym, cat, "장부 출금(" ++ cat ++ ")",
        catWithdrawalTotal (withdrawalRows (ledMonthRows led ym)) cat,
        "장부", "자동분류"⟩, ?_, rfl, rfl, rfl, rfl⟩
      unfold compute_auto_month_summary
      refine List.mem_append.2 (Or.inr ?_)
      unfold ledgerBlock
      rw [if_neg (by simp [List.isEmpty_iff, hled_ne]),
        if_neg (by simp [List.isEmpty_iff, hlm_ne])]
      refine List.mem_append.2 (Or.inr ?_)
      unfold expenseBlock
      rw [if_neg (by simp [List.isEmpty_iff, hrows_ne])]
      exact expenseItemsOf_mem_of hne htot hmap
  · rw [compute_filter_labor, compute_filter_pur, compute_filter_inv,
      compute_filter_sales, compute_filter_expense]
    unfold compute_auto_month_summary
    rw [ledgerBlock_eq]
    simp [List.append_assoc]

/-- Witness for C4 at a concrete two-row ledger: the Sales item carries the
500000 deposit and an 인건비 expense item carrying the 300000 withdrawal sum
exists among the output. -/
theorem C4_ledger_aggregation_witness :
    (compute_auto_month_summary [] []
        [⟨"2024-05", "장부", "차량 판매 대금", Cell.int 500000, Cell.int 0⟩,
         ⟨"2024-05", "장부", "직원 급여 지급", Cell.int 0, Cell.int 300000⟩]
        [] "2024-05").filter (fun it => it.source = "장부" ∧ it.note = "")
      = [⟨"2024-05", "매출", "장부 매출(입금)", 500000, "장부", ""⟩] ∧
    (∃ it ∈ compute_auto_month_summary [] []
        [⟨"2024-05", "장부", "차량 판매 대금", Cell.int 500000, Cell.int 0⟩,
         ⟨"2024-05", "장부", "직원 급여 지급", Cell.int 0, Cell.int 300000⟩]
        [] "2024-05",
      it.source = "장부" ∧ it.note = "자동분류" ∧ it.category = "인건비" ∧
      it.amount = catWithdrawalTotal (withdrawalRows (ledMonthRows
        [⟨"2024-05", "장부", "차량 판매 대금", Cell.int 500000, Cell.int 0⟩,
         ⟨"2024-05", "장부", "직원 급여 지급", Cell.int 0, Cell.int 300000⟩]
        "2024-05")) "인건비") := by
  constructor
  · rw [(C4_ledger_aggregation [] []
      [⟨"2024-05", "장부", "차량 판매 대금", Cell.int 500000, Cell.int 0⟩,
       ⟨"2024-05", "장부", "직원 급여 지급", Cell.int 0, Cell.int 300000⟩]
      [] "2024-05").1]
    decide
  · exact ((C4_ledger_aggregation [] []
      [⟨"2024-05", "장부", "차량 판매 대금", Cell.int 500000, Cell.int 0⟩,
       ⟨"2024-05", "장부", "직원 급여 지급", Cell.int 0, Cell.int 300000⟩]
      [] "2024-05").2.1 "인건비").2 ⟨by decide, by decide⟩
